import Mathlib

/-!
Verification of the status-derivation core of the LocalStack VS Code toolkit:
the coalescing scheduler (once-immediate.ts), the change-notifying value
emitter (emitter.ts), the health poll loop and the instance-status state
machine (localstack-instance.ts).

The embedding is a shallow one: each TypeScript function is translated into a
Lean function over an explicit state record; the single-threaded JavaScript
event loop is modelled by event lists folded through step functions, where an
event is a suspension-point boundary (a setImmediate/setTimeout callback
firing, a probe promise settling).
-/

namespace LocalStackToolkit

/-- Container lifecycle status reported by the external container source
(the `LocalStackContainerStatus` union type). -/
inductive LocalStackContainerStatus
  | running
  | stopping
  | stopped
deriving DecidableEq, Repr, Fintype

/-- Health probe result (the `HealthStatus` union type in
localstack-instance.ts). -/
inductive HealthStatus
  | healthy
  | unhealthy
deriving DecidableEq, Repr, Fintype

/-- Derived instance status (the `LocalStackInstanceStatus` union type). -/
inductive LocalStackInstanceStatus
  | starting
  | running
  | stopping
  | stopped
deriving DecidableEq, Repr, Fintype

/-- Translation of `getLocalStackStatus` (localstack-instance.ts).
The TypeScript `undefined` is `none`; a `none` result means "no emission"
(the caller only writes the cell when the result is truthy). -/
def getLocalStackStatus
    (containerStatus : Option LocalStackContainerStatus)
    (healthStatus : Option HealthStatus)
    (previousStatus : Option LocalStackInstanceStatus) :
    Option LocalStackInstanceStatus :=
  if containerStatus = none then
    none
  else if containerStatus = some .running ∧ healthStatus = some .healthy then
    some .running
  else if containerStatus = some .running ∧ healthStatus = some .unhealthy then
    if previousStatus = some .running ∨ previousStatus = some .stopping then
      some .stopping
    else
      some .starting
  else if containerStatus = some .running ∧ healthStatus = none then
    none
  else if containerStatus = some .stopping then
    some .stopping
  else
    some .stopped

/-- The specification's derivation table, transcribed row by row (spec
section 4.4); both "absent (no emission)" and "no change (suppress)" are
encoded as `none`, since neither writes the instance-status cell. -/
def specDeriveTable
    (containerStatus : Option LocalStackContainerStatus)
    (healthStatus : Option HealthStatus)
    (previousStatus : Option LocalStackInstanceStatus) :
    Option LocalStackInstanceStatus :=
  match containerStatus, healthStatus with
  | none, _ => none
  | some .running, some .healthy => some .running
  | some .running, some .unhealthy =>
    if previousStatus = some .running ∨ previousStatus = some .stopping then
      some .stopping
    else
      some .starting
  | some .running, none => none
  | some .stopping, _ => some .stopping
  | some .stopped, _ => some .stopped

/-- C1: the instance-status derivation function is total (it is a Lean
function, hence defined and exception-free on every input) and agrees with
the specification's table on every combination of container status in
{absent, running, stopping, stopped}, health status in {absent, healthy,
unhealthy}, and previous instance status in {absent, starting, running,
stopping, stopped}. -/
theorem getLocalStackStatus_matches_spec_table :
    ∀ (c : Option LocalStackContainerStatus) (h : Option HealthStatus)
      (p : Option LocalStackInstanceStatus),
      getLocalStackStatus c h p = specDeriveTable c h p := by
  decide

/-! ### Coalescing scheduler (once-immediate.ts) -/

/-- Outcome of one invocation of the unit of work handed to
`createOnceImmediate`: it can return normally (including returning a promise
that later fulfills), throw synchronously, or return a promise that later
rejects. -/
inductive RunOutcome
  | ok
  | syncThrow
  | asyncReject
deriving DecidableEq, Repr, Fintype

/-- State of one `createOnceImmediate` scheduler instance.
`timeoutSet` is the truthiness of the captured `timeout` variable;
`settleHandlerPending` records that the handler attached with `.finally` is
still waiting for the unit of work's promise to settle; `runsScheduled`
counts the `setImmediate` calls made so far. -/
structure OnceState where
  timeoutSet : Bool
  settleHandlerPending : Bool
  runsScheduled : Nat
deriving DecidableEq, Repr

def OnceState.init : OnceState := ⟨false, false, 0⟩

/-- The function returned by `createOnceImmediate`: if `timeout` is set the
call returns at once; otherwise it schedules a run with `setImmediate` and
stores the handle in `timeout`. -/
def trigger (s : OnceState) : OnceState :=
  if s.timeoutSet then
    s
  else
    { s with timeoutSet := true, runsScheduled := s.runsScheduled + 1 }

/-- The `setImmediate` callback fires: `Promise.resolve(callback())` evaluates
the unit of work synchronously. If the work throws synchronously, the
exception escapes before `.finally` is ever attached, so no handler will
clear `timeout`; otherwise the `.finally` handler is now pending on the
work's promise. In neither case does the `timeout` variable change at the
moment the run begins. -/
def runBegin (o : RunOutcome) (s : OnceState) : OnceState :=
  match o with
  | .syncThrow => s
  | _ => { s with settleHandlerPending := true }

/-- The `.finally` handler fires once the unit of work's promise settles,
whether it fulfilled or rejected: it clears the `timeout` variable. It can
only fire if it was attached. -/
def runSettle (s : OnceState) : OnceState :=
  if s.settleHandlerPending then
    { s with timeoutSet := false, settleHandlerPending := false }
  else
    s

/-- C2 counterexample: after one trigger and the start of the scheduled run of
a normally-returning unit of work, the pending flag (the `timeout` variable)
is still set — it is cleared only by the `.finally` handler after the run
completes — and a trigger issued while the unit of work is executing
schedules no new run: it is swallowed, contradicting the claim. -/
theorem onceImmediate_flag_set_at_run_begin :
    (runBegin .ok (trigger OnceState.init)).timeoutSet = true ∧
    (trigger (runBegin .ok (trigger OnceState.init))).runsScheduled =
      (runBegin .ok (trigger OnceState.init)).runsScheduled := by
  decide

/-- C2 amended: the pending flag is cleared only when the run settles (the
`.finally` path), not when it begins; every trigger made while the flag is
set — whether the run is merely pending or already executing — is merged
into the in-flight cycle and schedules nothing, and once the run has
settled, a trigger schedules a new future run. -/
theorem onceImmediate_trigger_merged_until_settle
    (s : OnceState) (h : s.timeoutSet = true) :
    trigger s = s ∧
    (∀ o : RunOutcome, (runBegin o s).timeoutSet = true) ∧
    (runSettle { s with settleHandlerPending := true }).timeoutSet = false ∧
    (trigger (runSettle { s with settleHandlerPending := true })).runsScheduled
      = s.runsScheduled + 1 := by
  refine ⟨?_, ?_, ?_, ?_⟩
  · simp [trigger, h]
  · intro o
    cases o <;> simp [runBegin, h]
  · simp [runSettle]
  · simp [runSettle, trigger]

/-- Witness for the amended C2 theorem at the state reached by one trigger
from the initial state. -/
theorem onceImmediate_trigger_merged_until_settle_witness :
    (trigger OnceState.init).timeoutSet = true ∧
    (trigger (trigger OnceState.init) = trigger OnceState.init ∧
      (∀ o : RunOutcome,
        (runBegin o (trigger OnceState.init)).timeoutSet = true) ∧
      (runSettle
        { trigger OnceState.init with settleHandlerPending := true }).timeoutSet
          = false ∧
      (trigger (runSettle
        { trigger OnceState.init with
            settleHandlerPending := true })).runsScheduled
        = (trigger OnceState.init).runsScheduled + 1) :=
  ⟨by decide, onceImmediate_trigger_merged_until_settle
    (trigger OnceState.init) (by decide)⟩

/-- C7 counterexample: a unit of work that throws synchronously escapes before
the `.finally` handler is attached, so the pending flag is never cleared: no
settle step can clear it, and a subsequent trigger schedules no new run —
the scheduler is permanently wedged, contradicting the claim for the
synchronous-throw case. -/
theorem onceImmediate_sync_throw_wedges :
    (runBegin .syncThrow (trigger OnceState.init)).timeoutSet = true ∧
    runSettle (runBegin .syncThrow (trigger OnceState.init)) =
      runBegin .syncThrow (trigger OnceState.init) ∧
    (trigger (runBegin .syncThrow (trigger OnceState.init))).runsScheduled =
      (runBegin .syncThrow (trigger OnceState.init)).runsScheduled := by
  decide

/-- C7 amended: when the unit of work returns an asynchronous result that
rejects, the `.finally`-path still clears the pending flag once the promise
settles, and a subsequent trigger schedules a new run; a synchronous throw,
by contrast, leaves the flag set forever (see the counterexample). -/
theorem onceImmediate_reject_clears_flag (s : OnceState) :
    (runSettle (runBegin .asyncReject s)).timeoutSet = false ∧
    (trigger (runSettle (runBegin .asyncReject s))).runsScheduled =
      s.runsScheduled + 1 := by
  constructor
  · simp [runBegin, runSettle]
  · simp [runBegin, runSettle, trigger]

/-! ### Change-notifying value cell (emitter.ts) -/

/-- How a registered callback behaves when it is invoked: return normally,
throw synchronously, or return a promise that later rejects. -/
inductive CbBehavior
  | ok
  | syncThrow
  | rejects
deriving DecidableEq, Repr, Fintype

/-- State of one `createValueEmitter` instance. `currentValue` is the stored
value (`none` is the TypeScript `undefined`); `callbacks` is the ordered
observer list; `pending` is the flag of the internally owned
`createOnceImmediate` scheduler driving the fan-out; `deliveryLog` records,
in order, each value delivered to the observer side — one entry per fan-out
cycle that reaches a non-empty observer list, and one entry per
replay-on-subscribe invocation. -/
structure EmitterState (α : Type) where
  currentValue : Option α
  callbacks : List CbBehavior
  pending : Bool
  deliveryLog : List (Option α)
deriving DecidableEq

def EmitterState.init (α : Type) : EmitterState α := ⟨none, [], false, []⟩

/-- Translation of `setValue` (emitter.ts): when the new value strictly
differs from the stored one, store it and trigger the coalescing emit
scheduler (a trigger on an already-pending scheduler is a no-op, so the flag
simply becomes set). -/
def setValue [DecidableEq α] (v : Option α) (s : EmitterState α) :
    EmitterState α :=
  if s.currentValue = v then
    s
  else
    { s with currentValue := v, pending := true }

/-- The scheduled emit runs (the `async` for-loop in emitter.ts): every
registered callback is invoked once with the value stored at that moment,
exceptions per callback being caught and discarded, and the scheduler flag
clears. One cycle reaching a non-empty observer list is logged as one
delivery to the set of observers; with no observers the loop delivers
nothing. -/
def runEmit [DecidableEq α] (s : EmitterState α) : EmitterState α :=
  if s.pending then
    { s with
        pending := false,
        deliveryLog :=
          s.deliveryLog ++
            if s.callbacks.isEmpty then [] else [s.currentValue] }
  else
    s

/-- The values handed to each observer, in registration order, during one
fan-out cycle of `runEmit` with no interleaved writes: each callback is
invoked exactly once, with the stored value. -/
def fanOutCalls (s : EmitterState α) : List (Option α) :=
  s.callbacks.map (fun _ => s.currentValue)

/-- Translation of `onChange` (emitter.ts): the callback is pushed onto the
observer list first, then immediately invoked once with the current value
(the replay). The replay's result is wrapped in `Promise.resolve(...)` with a
`.catch` that discards rejections, but a synchronous throw escapes before
that expression completes: the returned flag records whether an exception
propagates to the subscribing caller. -/
def onChange (cb : CbBehavior) (s : EmitterState α) : EmitterState α × Bool :=
  ({ s with
      callbacks := s.callbacks ++ [cb],
      deliveryLog := s.deliveryLog ++ [s.currentValue] },
    match cb with
    | .syncThrow => true
    | _ => false)

/-- A burst of `setValue` calls landing within one scheduling quantum. -/
def applyWrites [DecidableEq α] (ws : List (Option α)) (s : EmitterState α) :
    EmitterState α :=
  ws.foldl (fun acc v => setValue v acc) s

/-- One interleaving step of the event loop around a value emitter: a
`setValue` call, the scheduled emit firing, or a new subscription. -/
inductive EmEvent (α : Type)
  | write (v : Option α)
  | emitRun
  | subscribe (cb : CbBehavior)
deriving DecidableEq

def emStep [DecidableEq α] (s : EmitterState α) : EmEvent α → EmitterState α
  | .write v => setValue v s
  | .emitRun => runEmit s
  | .subscribe cb => (onChange cb s).1

def emRun [DecidableEq α] (events : List (EmEvent α)) (s : EmitterState α) :
    EmitterState α :=
  events.foldl emStep s

lemma setValue_currentValue [DecidableEq α] (v : Option α)
    (s : EmitterState α) : (setValue v s).currentValue = v := by
  by_cases h : s.currentValue = v <;> simp [setValue, h]

lemma setValue_callbacks [DecidableEq α] (v : Option α) (s : EmitterState α) :
    (setValue v s).callbacks = s.callbacks := by
  by_cases h : s.currentValue = v <;> simp [setValue, h]

lemma setValue_deliveryLog [DecidableEq α] (v : Option α)
    (s : EmitterState α) : (setValue v s).deliveryLog = s.deliveryLog := by
  by_cases h : s.currentValue = v <;> simp [setValue, h]

lemma applyWrites_cons [DecidableEq α] (v : Option α) (ws : List (Option α))
    (s : EmitterState α) :
    applyWrites (v :: ws) s = applyWrites ws (setValue v s) := rfl

lemma applyWrites_currentValue [DecidableEq α] (ws : List (Option α))
    (s : EmitterState α) :
    (applyWrites ws s).currentValue = ws.getLast?.getD s.currentValue := by
  induction ws generalizing s with
  | nil => rfl
  | cons v ws ih =>
    rw [applyWrites_cons, ih]
    cases ws with
    | nil => simp [setValue_currentValue]
    | cons w ws2 =>
      rw [List.getLast?_eq_getLast (w :: ws2) (by simp)]
      rfl

lemma applyWrites_callbacks [DecidableEq α] (ws : List (Option α))
    (s : EmitterState α) : (applyWrites ws s).callbacks = s.callbacks := by
  induction ws generalizing s with
  | nil => rfl
  | cons v ws ih => rw [applyWrites_cons, ih, setValue_callbacks]

lemma applyWrites_deliveryLog [DecidableEq α] (ws : List (Option α))
    (s : EmitterState α) : (applyWrites ws s).deliveryLog = s.deliveryLog := by
  induction ws generalizing s with
  | nil => rfl
  | cons v ws ih => rw [applyWrites_cons, ih, setValue_deliveryLog]

lemma runEmit_not_pending [DecidableEq α] (s : EmitterState α)
    (h : s.pending = false) : runEmit s = s := by
  simp [runEmit, h]

/-- C5 counterexample: on a fresh cell (stored value `undefined`) observed by
one subscriber, the non-empty burst consisting of the single call
`setValue(undefined)` is suppressed by the strict-equality guard: no emit is
triggered and the observer receives zero change callbacks in that quantum,
not exactly one. -/
theorem valueEmitter_noop_write_no_delivery :
    (applyWrites [(none : Option ℕ)]
        (⟨none, [CbBehavior.ok], false, []⟩ : EmitterState ℕ)).pending
      = false ∧
    (runEmit (applyWrites [(none : Option ℕ)]
        (⟨none, [CbBehavior.ok], false, []⟩ : EmitterState ℕ))).deliveryLog
      = [] := by
  decide

/-- C5 amended: within one quantum beginning with no emit pending, a non-empty
burst of `setValue` calls leaves the final written value stored; when some
write in the burst changed the stored value (the emit flag is set), the one
scheduled fan-out cycle invokes every registered observer exactly once with
exactly that final value, logs a single delivery to the observer set, and a
repeated run delivers nothing further; when no write changed the stored
value, the scheduled emit never fires and no observer is called. -/
theorem valueEmitter_coalesces_to_final_value [DecidableEq α]
    (s : EmitterState α) (ws : List (Option α)) (hne : ws ≠ [])
    (hp : s.pending = false) :
    (applyWrites ws s).currentValue = ws.getLast hne ∧
    ((applyWrites ws s).pending = true →
      fanOutCalls (applyWrites ws s)
          = List.replicate s.callbacks.length (ws.getLast hne) ∧
      (runEmit (applyWrites ws s)).deliveryLog
          = s.deliveryLog ++
              (if s.callbacks.isEmpty then [] else [ws.getLast hne]) ∧
      runEmit (runEmit (applyWrites ws s)) = runEmit (applyWrites ws s)) ∧
    ((applyWrites ws s).pending = false →
      runEmit (applyWrites ws s) = applyWrites ws s) := by
  have hcur : (applyWrites ws s).currentValue = ws.getLast hne := by
    rw [applyWrites_currentValue, List.getLast?_eq_getLast ws hne]
    rfl
  refine ⟨hcur, fun hpend => ⟨?_, ?_, ?_⟩, fun hnp => ?_⟩
  · simp [fanOutCalls, applyWrites_callbacks, hcur, List.map_const']
  · simp [runEmit, hpend, applyWrites_deliveryLog, applyWrites_callbacks, hcur]
  · have hq : (runEmit (applyWrites ws s)).pending = false := by
      simp [runEmit, hpend]
    exact runEmit_not_pending _ hq
  · exact runEmit_not_pending _ hnp

/-- Witness for the amended C5 theorem: a two-write burst on a fresh cell with
one observer delivers exactly the final value once. -/
theorem valueEmitter_coalesces_to_final_value_witness :
    ([some 1, some 2] : List (Option ℕ)) ≠ [] ∧
    (⟨none, [CbBehavior.ok], false, []⟩ : EmitterState ℕ).pending = false ∧
    (runEmit (applyWrites [some 1, some 2]
        (⟨none, [CbBehavior.ok], false, []⟩ : EmitterState ℕ))).deliveryLog
      = [some 2] :=
  ⟨by decide, rfl,
    (((valueEmitter_coalesces_to_final_value
        (⟨none, [CbBehavior.ok], false, []⟩ : EmitterState ℕ)
        [some 1, some 2] (by decide) rfl).2.1 (by decide)).2.1).trans
      (by decide)⟩

/-- C6 counterexample: with one observer, after a fan-out delivering `some 1`,
the two writes `some 1 → none → some 1` inside one pending cycle restore the
stored value, so the next fan-out again delivers `some 1`: two consecutive
deliveries to the set of observers carry an identical value, contradicting
the claimed invariant. -/
theorem valueEmitter_consecutive_duplicate_delivery :
    (emRun [.subscribe .ok, .write (some 1), .emitRun, .write none,
        .write (some 1), .emitRun] (EmitterState.init ℕ)).deliveryLog
      = [none, some 1, some 1] ∧
    ¬ List.Chain' (fun a b => a ≠ b)
        (emRun [.subscribe .ok, .write (some 1), .emitRun, .write none,
            .write (some 1), .emitRun] (EmitterState.init ℕ)).deliveryLog := by
  have hlog : (emRun [.subscribe .ok, .write (some 1), .emitRun, .write none,
      .write (some 1), .emitRun] (EmitterState.init ℕ)).deliveryLog
        = [none, some 1, some 1] := by decide
  refine ⟨hlog, ?_⟩
  rw [hlog]
  simp [List.chain'_cons]

/-- C6 amended: the cell suppresses duplicates per write — a `setValue` call
whose argument equals the currently stored value changes nothing and triggers
no emission — but consecutive fan-out deliveries can still carry identical
values when intermediate writes within one pending cycle return the stored
value to the one most recently delivered (see the counterexample). -/
theorem valueEmitter_equal_write_suppressed [DecidableEq α]
    (s : EmitterState α) (v : Option α) (h : s.currentValue = v) :
    setValue v s = s := by
  simp [setValue, h]

/-- Witness for the amended C6 theorem: writing the already-stored value is
the identity on the cell state. -/
theorem valueEmitter_equal_write_suppressed_witness :
    (⟨some 1, [CbBehavior.ok], false, []⟩ : EmitterState ℕ).currentValue
      = some 1 ∧
    setValue (some 1)
        (⟨some 1, [CbBehavior.ok], false, []⟩ : EmitterState ℕ)
      = ⟨some 1, [CbBehavior.ok], false, []⟩ :=
  ⟨rfl, valueEmitter_equal_write_suppressed _ _ rfl⟩

/-- C10: `onChange` appends the callback to the observer list before the
immediate replay, the replay invocation happens exactly once with the current
value, a synchronous throw during the replay escapes to the subscribing
caller (and only a synchronous throw does — a rejected promise is discarded
by the attached catch), and in every case the callback stays registered and
is included in subsequent fan-out cycles. -/
theorem onChange_replay_behavior (s : EmitterState α) (cb : CbBehavior) :
    (onChange cb s).1.callbacks = s.callbacks ++ [cb] ∧
    (onChange cb s).1.deliveryLog = s.deliveryLog ++ [s.currentValue] ∧
    (onChange cb s).1.currentValue = s.currentValue ∧
    ((onChange cb s).2 = true ↔ cb = CbBehavior.syncThrow) ∧
    (fanOutCalls (onChange cb s).1).length = s.callbacks.length + 1 := by
  refine ⟨rfl, rfl, rfl, ?_, ?_⟩
  · cases cb <;> simp [onChange]
  · simp [fanOutCalls, onChange]

/-! ### Health poll loop (createHealthStatusTracker, localstack-instance.ts) -/

/-- Outcome of one `fetchHealth()` call as observed at the `await` inside
`fetchAndUpdateStatus`: a boolean result, or a transport failure. -/
inductive ProbeOutcome
  | ok (healthy : Bool)
  | failure
deriving DecidableEq, Repr

/-- Modelled from the spec: `fetchHealth` lives in manage.ts, which is not
among these sources; per the spec's error taxonomy, the health probe
throwing or rejecting is treated identically to a successful `false` result,
so the probe transport resolves to a boolean with failure mapped to `false`
and nothing escapes as an exception. (`timeTracker.run`, also external, is
modelled as transparently awaiting its argument.) -/
def fetchHealth : ProbeOutcome → Bool
  | .ok b => b
  | .failure => false

/-- State of one `createHealthStatusTracker` instance. `cell` is the status
value emitter; `pendingTimer` means a one-shot `setTimeout` is currently
pending in the event loop; `timeoutHandle` is the truthiness of the
`healthCheckTimeout` variable (which keeps holding the stale handle of a
timer that already fired); `probeInFlight` means `fetchAndUpdateStatus` is
awaiting the probe; `enqueueAgain` is the continue-running flag;
`timersScheduled` counts the `setTimeout` calls made so far. -/
structure HealthState where
  cell : EmitterState HealthStatus
  pendingTimer : Bool
  timeoutHandle : Bool
  probeInFlight : Bool
  enqueueAgain : Bool
  timersScheduled : Nat
deriving DecidableEq

def HealthState.init : HealthState :=
  ⟨EmitterState.init HealthStatus, false, false, false, false, 0⟩

/-- Translation of `updateStatus`: write the cell. -/
def updateStatus (v : Option HealthStatus) (s : HealthState) : HealthState :=
  { s with cell := setValue v s.cell }

/-- Translation of `enqueueUpdateStatus`: if the `healthCheckTimeout`
variable is set, return; otherwise schedule a 1-second one-shot timer and
store its handle in the variable. -/
def enqueueUpdateStatus (s : HealthState) : HealthState :=
  if s.timeoutHandle then
    s
  else
    { s with
        timeoutHandle := true,
        pendingTimer := true,
        timersScheduled := s.timersScheduled + 1 }

/-- Translation of `start`: set the continue-running flag and enqueue. -/
def hStart (s : HealthState) : HealthState :=
  enqueueUpdateStatus { s with enqueueAgain := true }

/-- Translation of `stop`: publish absent, clear the continue-running flag,
cancel any pending timer (`clearTimeout`), and clear the variable. -/
def hStop (s : HealthState) : HealthState :=
  { updateStatus none s with
      enqueueAgain := false,
      pendingTimer := false,
      timeoutHandle := false }

/-- Translation of `dispose`: `clearTimeout(healthCheckTimeout)` only — the
variable itself, the continue-running flag and the published value are left
untouched. -/
def hDispose (s : HealthState) : HealthState :=
  { s with pendingTimer := false }

/-- The pending `setTimeout` fires: `fetchAndUpdateStatus` starts and awaits
the probe. The `healthCheckTimeout` variable is not cleared here; it keeps
the stale handle until the re-arm path or `stop` resets it. -/
def timerFire (s : HealthState) : HealthState :=
  if s.pendingTimer then
    { s with pendingTimer := false, probeInFlight := true }
  else
    s

/-- The in-flight probe settles with outcome `o`: `fetchAndUpdateStatus`
publishes `healthy`/`unhealthy` unconditionally, then its `.then`
continuation consults the continue-running flag — and only when it is set
clears the `healthCheckTimeout` variable and enqueues the next timer. -/
def probeResolve (o : ProbeOutcome) (s : HealthState) : HealthState :=
  if s.probeInFlight then
    let s1 := updateStatus
      (some (if fetchHealth o then HealthStatus.healthy else .unhealthy))
      { s with probeInFlight := false }
    if s1.enqueueAgain then
      enqueueUpdateStatus { s1 with timeoutHandle := false }
    else
      s1
  else
    s

/-- One interleaving step of the event loop around the health tracker. -/
inductive HEvent
  | start
  | stop
  | dispose
  | timerFire
  | probeResolve (o : ProbeOutcome)
  | cellEmitRun
deriving DecidableEq, Repr

def hStep (s : HealthState) : HEvent → HealthState
  | .start => hStart s
  | .stop => hStop s
  | .dispose => hDispose s
  | .timerFire => timerFire s
  | .probeResolve o => probeResolve o s
  | .cellEmitRun => { s with cell := runEmit s.cell }

def hRun (events : List HEvent) (s : HealthState) : HealthState :=
  events.foldl hStep s

/-- C3 counterexample: start the tracker, let the timer fire so a probe is in
flight, call `stop()` — the published health value is then absent — and let
the in-flight probe resolve healthy: its completion callback publishes
unconditionally (the continue-running flag guards only the re-arm), so the
health status becomes `healthy` rather than remaining absent, contradicting
the claim. -/
theorem healthTracker_publishes_after_stop :
    (hRun [.start, .timerFire, .stop] HealthState.init).cell.currentValue
      = none ∧
    (hRun [.start, .timerFire, .stop, .probeResolve (.ok true)]
        HealthState.init).cell.currentValue = some HealthStatus.healthy := by
  decide

/-- C3 amended: `stop()` during an in-flight probe resets the published health
value to absent, does not crash, and prevents any re-arm; but the probe's
completion callback checks the continue-running flag only before scheduling
the next timer, not before publishing, so the probe's resolution still
publishes its health value and the status does not remain absent. -/
theorem healthTracker_inflight_probe_still_publishes
    (s : HealthState) (o : ProbeOutcome) (hin : s.probeInFlight = true) :
    (hStop s).cell.currentValue = none ∧
    (probeResolve o (hStop s)).cell.currentValue
      = some (if fetchHealth o then HealthStatus.healthy else .unhealthy) ∧
    (probeResolve o (hStop s)).timersScheduled = s.timersScheduled := by
  refine ⟨?_, ?_, ?_⟩
  · simp [hStop, updateStatus, setValue_currentValue]
  · simp [probeResolve, hStop, hin, updateStatus, setValue_currentValue]
  · simp [probeResolve, hStop, hin, updateStatus, setValue]

/-- Witness for the amended C3 theorem at the state with a probe in flight
reached by a start and a timer firing. -/
theorem healthTracker_inflight_probe_still_publishes_witness :
    (hRun [.start, .timerFire] HealthState.init).probeInFlight = true ∧
    ((hStop (hRun [.start, .timerFire] HealthState.init)).cell.currentValue
        = none ∧
      (probeResolve (.ok true)
          (hStop (hRun [.start, .timerFire] HealthState.init))).cell.currentValue
        = some (if fetchHealth (.ok true) then HealthStatus.healthy
            else .unhealthy) ∧
      (probeResolve (.ok true)
          (hStop (hRun [.start, .timerFire] HealthState.init))).timersScheduled
        = (hRun [.start, .timerFire] HealthState.init).timersScheduled) :=
  ⟨by decide, healthTracker_inflight_probe_still_publishes
    (hRun [.start, .timerFire] HealthState.init) (.ok true) (by decide)⟩

/-- C4: a probe that fails (throws or rejects) is handled identically to a
probe that resolves to `false`: the resolution step is the very same state
transformation, the published health status becomes `unhealthy`, and the
probe cycle is a total function of the outcome — no exception escapes it. -/
theorem healthTracker_probe_failure_is_unhealthy
    (s : HealthState) (hin : s.probeInFlight = true) :
    probeResolve .failure s = probeResolve (.ok false) s ∧
    (probeResolve .failure s).cell.currentValue
      = some HealthStatus.unhealthy := by
  constructor
  · rfl
  · simp [probeResolve, hin, updateStatus, setValue_currentValue, fetchHealth,
      enqueueUpdateStatus]
    split <;> simp [updateStatus, enqueueUpdateStatus, setValue_currentValue]

/-- Witness for the C4 theorem at the state with a probe in flight reached by
a start and a timer firing. -/
theorem healthTracker_probe_failure_is_unhealthy_witness :
    (hRun [.start, .timerFire] HealthState.init).probeInFlight = true ∧
    (probeResolve .failure (hRun [.start, .timerFire] HealthState.init)
        = probeResolve (.ok false)
            (hRun [.start, .timerFire] HealthState.init) ∧
      (probeResolve .failure
          (hRun [.start, .timerFire] HealthState.init)).cell.currentValue
        = some HealthStatus.unhealthy) :=
  ⟨by decide, healthTracker_probe_failure_is_unhealthy
    (hRun [.start, .timerFire] HealthState.init) (by decide)⟩

lemma hStep_stopped_schedules_nothing (s : HealthState) (e : HEvent)
    (ha : s.enqueueAgain = false) (he : e ≠ HEvent.start) :
    (hStep s e).enqueueAgain = false ∧
    (hStep s e).timersScheduled = s.timersScheduled := by
  cases e with
  | start => exact absurd rfl he
  | stop => simp [hStep, hStop, updateStatus]
  | dispose => simp [hStep, hDispose, ha]
  | timerFire =>
    simp only [hStep, timerFire]
    split <;> simp [ha]
  | probeResolve o =>
    simp only [hStep, probeResolve, updateStatus, ha]
    split <;> simp [ha]
  | cellEmitRun => simp [hStep, ha]

lemma hRun_stopped_schedules_nothing (events : List HEvent) (s : HealthState)
    (ha : s.enqueueAgain = false) (h : ∀ e ∈ events, e ≠ HEvent.start) :
    (hRun events s).enqueueAgain = false ∧
    (hRun events s).timersScheduled = s.timersScheduled := by
  induction events generalizing s with
  | nil => exact ⟨ha, rfl⟩
  | cons e es ih =>
    have he : e ≠ HEvent.start := h e (List.mem_cons_self e es)
    have step := hStep_stopped_schedules_nothing s e ha he
    have rest := ih (hStep s e) step.1
      (fun x hx => h x (List.mem_cons_of_mem e hx))
    exact ⟨rest.1, step.2 ▸ rest.2⟩

/-- C8: after `stop()` — in particular a `stop()` issued while a probe is in
flight — as long as `start()` is not called again, no later event loop step
schedules a timer: the continue-running flag is cleared by `stop` and is
consulted after the probe completes, so the in-flight probe's resolution
re-arms nothing. -/
theorem healthTracker_no_timer_after_stop (s : HealthState)
    (events : List HEvent) (h : ∀ e ∈ events, e ≠ HEvent.start) :
    (hRun events (hStop s)).timersScheduled = (hStop s).timersScheduled := by
  exact (hRun_stopped_schedules_nothing events (hStop s) (by simp [hStop]) h).2

/-- Witness for the C8 theorem: stop during an in-flight probe, then let the
probe resolve — no timer is scheduled. -/
theorem healthTracker_no_timer_after_stop_witness :
    (∀ e ∈ [HEvent.probeResolve (.ok true), HEvent.cellEmitRun],
        e ≠ HEvent.start) ∧
    (hRun [HEvent.probeResolve (.ok true), HEvent.cellEmitRun]
        (hStop (hRun [.start, .timerFire] HealthState.init))).timersScheduled
      = (hStop (hRun [.start, .timerFire] HealthState.init)).timersScheduled :=
  ⟨by decide, healthTracker_no_timer_after_stop
    (hRun [.start, .timerFire] HealthState.init)
    [HEvent.probeResolve (.ok true), HEvent.cellEmitRun] (by decide)⟩

/-! ### Instance status tracker (createLocalStackInstanceStatusTracker) -/

/-- The slice of `createLocalStackInstanceStatusTracker` state that
`forceContainerStatus` touches: the captured `containerStatus` variable and
the instance-status value emitter (whose `value()` is what `status()`
returns and whose fan-out is what notifies `onChange` observers). -/
structure InstanceState where
  containerStatus : Option LocalStackContainerStatus
  statusCell : EmitterState LocalStackInstanceStatus
deriving DecidableEq

/-- Translation of `forceContainerStatus` (localstack-instance.ts): store the
new container status; when it is `running` write `starting` into the
instance-status cell, when it is `stopping` write `stopping`, otherwise
leave the cell alone. -/
def forceContainerStatus (newContainerStatus : LocalStackContainerStatus)
    (s : InstanceState) : InstanceState :=
  let s1 := { s with containerStatus := some newContainerStatus }
  if newContainerStatus = .running then
    { s1 with statusCell := setValue (some .starting) s1.statusCell }
  else if newContainerStatus = .stopping then
    { s1 with statusCell := setValue (some .stopping) s1.statusCell }
  else
    s1

/-- C9: calling `forceContainerStatus` with `stopped` — the only container
status besides `running` and `stopping` — updates the stored container
status but leaves the instance-status cell completely untouched: `status()`
returns the same value as before the call, no emission becomes pending, and
no observer notification results from the call. -/
theorem forceContainerStatus_stopped_frame (s : InstanceState) :
    (forceContainerStatus .stopped s).containerStatus
        = some LocalStackContainerStatus.stopped ∧
    (forceContainerStatus .stopped s).statusCell = s.statusCell := by
  constructor <;> rfl

end LocalStackToolkit
